import Mathlib

/-!
Verification of the PX4 `Integrator` component (`src/lib/drivers/device/integrator.h`).

The repository contains only the class declaration (`integrator.h`); the
translation unit with the method bodies (`integrator.cpp`) is not part of the
sources. The state type, the field initializers, the constructor defaults and
the body of `set_autoreset_interval` are taken from the header; the bodies of
`put`, `put_with_interval`, `get`, `get_and_filtered` and `_reset` are modelled
from the specification (sections 4 and 7 of the design document).

Machine floats (`matrix::Vector3f`) are embedded as 3-vectors of rationals, so
all the "within floating-point tolerance" statements of the spec become exact
equalities. `uint64_t` microsecond timestamps are embedded as `Nat`; the spec
states that elapsed durations are "never negative", so timestamp differences
use truncated natural subtraction.
-/

set_option autoImplicit false

namespace Firmware

/-- A 3-component vector with rational entries, embedding `matrix::Vector3f`. -/
structure Vec3 where
  x : ℚ
  y : ℚ
  z : ℚ
deriving DecidableEq, Repr

namespace Vec3

/-- Componentwise addition of vectors. -/
def add (a b : Vec3) : Vec3 := ⟨a.x + b.x, a.y + b.y, a.z + b.z⟩

/-- Scaling of a vector by a rational number. -/
def smul (c : ℚ) (a : Vec3) : Vec3 := ⟨c * a.x, c * a.y, c * a.z⟩

/-- The cross product of two 3-vectors (the `%` operator of `matrix`). -/
def cross (a b : Vec3) : Vec3 :=
  ⟨a.y * b.z - a.z * b.y, a.z * b.x - a.x * b.z, a.x * b.y - a.y * b.x⟩

/-- The zero vector, the `{0.0f, 0.0f, 0.0f}` field initializer. -/
def zero : Vec3 := ⟨0, 0, 0⟩

instance : Add Vec3 := ⟨Vec3.add⟩

end Vec3

/-- The state of one `Integrator` instance: the private fields declared in
`integrator.h` lines 117-129, with the same names minus the leading
underscore. -/
structure Integrator where
  auto_reset_interval : ℕ
  last_integration_time : ℕ
  last_reset_time : ℕ
  alpha : Vec3
  last_alpha : Vec3
  beta : Vec3
  last_val : Vec3
  last_delta_alpha : Vec3
  coning_comp_on : Bool
deriving DecidableEq, Repr

namespace Integrator

/-- The constructor: the parameter defaults are `4000` (250 Hz) and coning off
(`integrator.h` line 51); all vector fields start at zero and both timestamps
start at the `0` sentinel (field initializers, lines 117-129). -/
def mk0 (auto_reset_interval : ℕ) (coning_compensation : Bool) : Integrator :=
  { auto_reset_interval := auto_reset_interval
    last_integration_time := 0
    last_reset_time := 0
    alpha := Vec3.zero
    last_alpha := Vec3.zero
    beta := Vec3.zero
    last_val := Vec3.zero
    last_delta_alpha := Vec3.zero
    coning_comp_on := coning_compensation }

/-- The default `auto_reset_interval` constructor argument: 4000 µs, i.e. a
250 Hz publish rate (`integrator.h` line 51). -/
def defaultAutoResetInterval : ℕ := 4000

/-- Modelled from the spec: the fixed coning-compensation coefficient. The
body of `put` is absent from the sources; section 9 of the spec leaves the
exact constant open and suggests the standard two-sample value 2/3, which is
adopted here. No claim depends on its exact value. -/
def coningCoeff : ℚ := 2 / 3

/-- Modelled from the spec (section 4, `_reset`): the value a flush combines
and returns — `alpha`, plus `beta` when coning compensation is enabled. -/
def flushValue (s : Integrator) : Vec3 :=
  if s.coning_comp_on then s.alpha + s.beta else s.alpha

/-- Modelled from the spec (section 4, `_reset`): the elapsed duration a flush
reports, `timestamp_of_flush - last_reset_time`. The flush timestamp is the
timestamp of the most recently accepted sample, `last_integration_time`. -/
def resetDt (s : Integrator) : ℕ :=
  s.last_integration_time - s.last_reset_time

/-- Modelled from the spec (section 4, `_reset`): zero `alpha`, `beta`,
`last_alpha` and `last_delta_alpha`, set `last_reset_time` to the flush
timestamp, and leave `last_val` and `last_integration_time` untouched. -/
def resetState (s : Integrator) : Integrator :=
  { s with
    alpha := Vec3.zero
    beta := Vec3.zero
    last_alpha := Vec3.zero
    last_delta_alpha := Vec3.zero
    last_reset_time := s.last_integration_time }

/-- Modelled from the spec (section 4, `put`, subsequent-call case): the
trapezoidal increment of one step, `(val + last_val) * 0.5 * dt`, where `dt`
is the timestamp delta converted from microseconds to seconds and a
non-increasing timestamp gives `dt = 0` (section 7). -/
def deltaAlpha (s : Integrator) (timestamp : ℕ) (val : Vec3) : Vec3 :=
  Vec3.smul (((timestamp - s.last_integration_time : ℕ) : ℚ) / 1000000 * (1 / 2))
    (val + s.last_val)

/-- Modelled from the spec (section 4, `put`, subsequent-call case): the
accumulation part of one `put` step. Adds the trapezoidal increment to
`alpha`; when coning compensation is on, accumulates into `beta` the
cross-product correction of the previous increment (`last_delta_alpha`) with
the current one, scaled by the fixed coefficient; then updates `last_alpha`,
`last_val`, `last_delta_alpha` and `last_integration_time`. -/
def stepAccum (s : Integrator) (timestamp : ℕ) (val : Vec3) : Integrator :=
  { s with
    alpha := s.alpha + deltaAlpha s timestamp val
    beta :=
      if s.coning_comp_on then
        s.beta +
          Vec3.smul coningCoeff
            (Vec3.cross s.last_delta_alpha (deltaAlpha s timestamp val))
      else s.beta
    last_alpha := s.alpha
    last_val := val
    last_delta_alpha := deltaAlpha s timestamp val
    last_integration_time := timestamp }

/-- The outcome of one `put` call: the returned boolean and the two output
parameters, which are written only when the call triggered a flush (`none`
models "the value will not be modified"), together with the updated state. -/
structure PutResult where
  triggered : Bool
  integral : Option Vec3
  integral_dt : Option ℕ
  state : Integrator
deriving DecidableEq, Repr

/-- Modelled from the spec (section 4, `put`): on the first call after
construction or reset (`last_integration_time == 0`) store `val`/`timestamp`
as the baseline (anchoring `last_reset_time` there as well, so that the
auto-reset window of the spec's timing property starts at the baseline
sample) and return `triggered = false`; on subsequent calls accumulate, then
flush exactly when `auto_reset_interval != 0` and
`timestamp - last_reset_time >= auto_reset_interval`. -/
def put (s : Integrator) (timestamp : ℕ) (val : Vec3) : PutResult :=
  if s.last_integration_time = 0 then
    { triggered := false
      integral := none
      integral_dt := none
      state :=
        { s with
          last_val := val
          last_integration_time := timestamp
          last_reset_time := timestamp } }
  else if s.auto_reset_interval ≠ 0 ∧ s.auto_reset_interval ≤ timestamp - s.last_reset_time then
    { triggered := true
      integral := some (flushValue (stepAccum s timestamp val))
      integral_dt := some (resetDt (stepAccum s timestamp val))
      state := resetState (stepAccum s timestamp val) }
  else
    { triggered := false
      integral := none
      integral_dt := none
      state := stepAccum s timestamp val }

/-- Modelled from the spec (section 4, `put_with_interval`): identical to
`put` except that the step is supplied as an interval; the synthetic timestamp
is the accumulated `last_integration_time + interval_us`. On the first call
(no baseline yet) the baseline timestamp comes from the external monotonic
clock, passed here as `now`. -/
def put_with_interval (s : Integrator) (now : ℕ) (interval_us : ℕ) (val : Vec3) :
    PutResult :=
  if s.last_integration_time = 0 then
    put s now val
  else
    put s (s.last_integration_time + interval_us) val

/-- The outcome of a `get` call: the returned integral, the `integral_dt`
output parameter, and the updated state. -/
structure GetResult where
  integral : Vec3
  integral_dt : ℕ
  state : Integrator
deriving DecidableEq, Repr

/-- Modelled from the spec (section 4, `get`): return the value a flush would
produce right now and the elapsed duration; when `reset` is true actually
perform the flush, otherwise mutate nothing. -/
def get (s : Integrator) (reset : Bool) : GetResult :=
  { integral := flushValue s
    integral_dt := resetDt s
    state := if reset then resetState s else s }

/-- The outcome of a `get_and_filtered` call: as `get`, plus the
`filtered_val` output parameter. -/
structure GetFilteredResult where
  integral : Vec3
  integral_dt : ℕ
  filtered_val : Vec3
  state : Integrator
deriving DecidableEq, Repr

/-- Modelled from the spec (section 4, `get_and_filtered`): same contract as
`get`, additionally returning `filtered_val = integral / (integral_dt
converted to seconds)`, i.e. the integral scaled by `1000000 / integral_dt`. -/
def get_and_filtered (s : Integrator) (reset : Bool) : GetFilteredResult :=
  let g := get s reset
  { integral := g.integral
    integral_dt := g.integral_dt
    filtered_val := Vec3.smul (1000000 / (g.integral_dt : ℚ)) g.integral
    state := g.state }

/-- `set_autoreset_interval` (`integrator.h` line 114): assigns the new
interval to `auto_reset_interval` and touches nothing else. -/
def set_autoreset_interval (s : Integrator) (auto_reset_interval : ℕ) : Integrator :=
  { s with auto_reset_interval := auto_reset_interval }

end Integrator

open Integrator

/-- A concrete sample value used by the example states below. -/
def sampleVal : Vec3 := ⟨1, 2, 3⟩

/-- A concrete accumulating state whose window spans exactly 2 000 000 µs and
whose accumulated integral is `(4, 0, 0)`: reached, e.g., by a baseline sample
at 1000 µs followed by suitable samples up to 2 001 000 µs. -/
def filteredExampleState : Integrator :=
  { mk0 0 false with
    last_integration_time := 2001000
    last_reset_time := 1000
    alpha := ⟨4, 0, 0⟩ }

/-- The spec's auto-reset timing scenario: a default integrator
(`auto_reset_interval = 4000` µs, coning off). -/
def autoResetState0 : Integrator := mk0 defaultAutoResetInterval false

/-- Baseline sample of the auto-reset scenario, at 1000 µs. -/
def autoResetPut1 : PutResult := put autoResetState0 1000 sampleVal

/-- 1st `put` after the baseline (2000 µs). -/
def autoResetPut2 : PutResult := put autoResetPut1.state 2000 sampleVal

/-- 2nd `put` after the baseline (3000 µs). -/
def autoResetPut3 : PutResult := put autoResetPut2.state 3000 sampleVal

/-- 3rd `put` after the baseline (4000 µs). -/
def autoResetPut4 : PutResult := put autoResetPut3.state 4000 sampleVal

/-- 4th `put` after the baseline (5000 µs). -/
def autoResetPut5 : PutResult := put autoResetPut4.state 5000 sampleVal

/-- Stale-timestamp scenario: integrator built with auto-reset disabled. -/
def staleBase : Integrator := mk0 0 false

/-- Baseline sample of the stale-timestamp scenario, at 5000 µs. -/
def stalePut1 : PutResult := put staleBase 5000 sampleVal

/-- Second sample of the stale-timestamp scenario, at 10 000 µs (no flush:
auto-reset is disabled). -/
def stalePut2 : PutResult := put stalePut1.state 10000 sampleVal

/-- Mid-window reconfiguration: the auto-reset interval becomes 2000 µs. -/
def staleReconfigured : Integrator := set_autoreset_interval stalePut2.state 2000

/-- A `put` with the stale timestamp 8000 µs, which is less than the stored
`last_integration_time = 10 000` µs. -/
def stalePut3 : PutResult := put staleReconfigured 8000 sampleVal

/-- Feed `n` samples of the constant value `v` at timestamps
`t0, t0 + step, t0 + 2 * step, …` into `put`, starting from state `s`. -/
def putSeq (t0 step : ℕ) (v : Vec3) (s : Integrator) : ℕ → Integrator
  | 0 => s
  | n + 1 => (put (putSeq t0 step v s n) (t0 + n * step) v).state

/-- The constant-rate scenario of the spec: `n` identical samples at a uniform
step fed into a fresh integrator with auto-reset disabled (so that no flush
empties the accumulator mid-sequence) and coning off. -/
def uniformRun (t0 step : ℕ) (v : Vec3) (n : ℕ) : Integrator :=
  putSeq t0 step v (mk0 0 false) n

/-- Feed a list of timestamped samples into `put`, keeping only the final
state. -/
def runPuts (s : Integrator) (samples : List (ℕ × Vec3)) : Integrator :=
  samples.foldl (fun st p => (put st p.1 p.2).state) s

/-- Timestamped samples that are all scalar multiples of one fixed direction
`d`. -/
def collinearSamples (d : Vec3) (l : List (ℕ × ℚ)) : List (ℕ × Vec3) :=
  l.map fun p => (p.1, Vec3.smul p.2 d)

/-- Coupling invariant for the coning/no-coning comparison on collinear input:
the two states agree on everything the integral and the flush decision depend
on, the coning-enabled run has accumulated no correction, and the sample
history kept in the state is collinear with `d`. -/
def mirrors (d : Vec3) (son soff : Integrator) : Prop :=
  son.auto_reset_interval = soff.auto_reset_interval ∧
  son.last_integration_time = soff.last_integration_time ∧
  son.last_reset_time = soff.last_reset_time ∧
  son.alpha = soff.alpha ∧
  son.last_val = soff.last_val ∧
  son.beta = Vec3.zero ∧
  son.coning_comp_on = true ∧
  soff.coning_comp_on = false ∧
  (∃ c, son.last_val = Vec3.smul c d) ∧
  (∃ c, son.last_delta_alpha = Vec3.smul c d)

section Lemmas

/-- Unfolding lemma for vector addition. -/
theorem Vec3.add_def (a b : Vec3) : a + b = ⟨a.x + b.x, a.y + b.y, a.z + b.z⟩ := rfl

/-- Scaling by the coefficient zero yields the zero vector. -/
theorem Vec3.smul_zero_coeff (a : Vec3) : Vec3.smul 0 a = Vec3.zero := by
  simp [Vec3.smul, Vec3.zero]

/-- Scaling the zero vector yields the zero vector. -/
theorem Vec3.smul_zero_vec (c : ℚ) : Vec3.smul c Vec3.zero = Vec3.zero := by
  simp [Vec3.smul, Vec3.zero]

/-- The zero vector is a right identity for addition. -/
theorem Vec3.add_zero_vec (a : Vec3) : a + Vec3.zero = a := by
  simp [Vec3.add_def, Vec3.zero]

/-- The zero vector is a left identity for addition. -/
theorem Vec3.zero_add_vec (a : Vec3) : Vec3.zero + a = a := by
  simp [Vec3.add_def, Vec3.zero]

/-- Scaling distributes over a sum of scalings of the same vector. -/
theorem Vec3.smul_add_smul (a b : ℚ) (d : Vec3) :
    Vec3.smul a d + Vec3.smul b d = Vec3.smul (a + b) d := by
  simp only [Vec3.add_def, Vec3.smul, Vec3.mk.injEq]
  refine ⟨by ring, by ring, by ring⟩

/-- Composition of scalings. -/
theorem Vec3.smul_smul (a b : ℚ) (d : Vec3) :
    Vec3.smul a (Vec3.smul b d) = Vec3.smul (a * b) d := by
  simp only [Vec3.smul, Vec3.mk.injEq]
  refine ⟨by ring, by ring, by ring⟩

/-- Doubling a vector is scaling it by two. -/
theorem Vec3.add_self (v : Vec3) : v + v = Vec3.smul 2 v := by
  simp only [Vec3.add_def, Vec3.smul, Vec3.mk.injEq]
  refine ⟨by ring, by ring, by ring⟩

/-- The cross product of two collinear vectors is the zero vector. -/
theorem Vec3.cross_smul_smul (c₁ c₂ : ℚ) (d : Vec3) :
    Vec3.cross (Vec3.smul c₁ d) (Vec3.smul c₂ d) = Vec3.zero := by
  simp only [Vec3.cross, Vec3.smul, Vec3.zero, Vec3.mk.injEq]
  refine ⟨by ring, by ring, by ring⟩

/-- The cross product with the zero vector on the right vanishes. -/
theorem Vec3.cross_zero_right (a : Vec3) : Vec3.cross a Vec3.zero = Vec3.zero := by
  simp [Vec3.cross, Vec3.zero]

/-- `put` returns `triggered = true` exactly when a baseline sample exists and
the auto-reset condition holds. -/
theorem put_triggered_iff (s : Integrator) (ts : ℕ) (v : Vec3) :
    (put s ts v).triggered = true ↔
      s.last_integration_time ≠ 0 ∧ s.auto_reset_interval ≠ 0 ∧
        s.auto_reset_interval ≤ ts - s.last_reset_time := by
  unfold put
  split
  · simp_all
  · split <;> simp_all

/-- A non-triggering `put` on an accumulating state performs exactly the
accumulation step. -/
theorem put_state_of_not_triggered (s : Integrator) (ts : ℕ) (v : Vec3)
    (h0 : s.last_integration_time ≠ 0)
    (h : ¬(s.auto_reset_interval ≠ 0 ∧ s.auto_reset_interval ≤ ts - s.last_reset_time)) :
    put s ts v =
      { triggered := false, integral := none, integral_dt := none,
        state := stepAccum s ts v } := by
  unfold put
  rw [if_neg h0, if_neg h]

/-- A triggering `put` accumulates, flushes the accumulated state, and reports
the flushed value and duration. -/
theorem put_of_triggered (s : Integrator) (ts : ℕ) (v : Vec3)
    (h0 : s.last_integration_time ≠ 0)
    (h : s.auto_reset_interval ≠ 0 ∧ s.auto_reset_interval ≤ ts - s.last_reset_time) :
    put s ts v =
      { triggered := true
        integral := some (flushValue (stepAccum s ts v))
        integral_dt := some (resetDt (stepAccum s ts v))
        state := resetState (stepAccum s ts v) } := by
  unfold put
  rw [if_neg h0, if_pos h]

/-- No `put` call changes the coning-compensation flag. -/
theorem put_state_coning (s : Integrator) (ts : ℕ) (v : Vec3) :
    (put s ts v).state.coning_comp_on = s.coning_comp_on := by
  unfold put
  split
  · rfl
  · split <;> rfl

/-- A non-increasing timestamp yields a zero trapezoidal increment. -/
theorem deltaAlpha_of_stale (s : Integrator) (ts : ℕ) (v : Vec3)
    (h : ts ≤ s.last_integration_time) : deltaAlpha s ts v = Vec3.zero := by
  unfold deltaAlpha
  rw [Nat.sub_eq_zero_of_le h]
  norm_num [Vec3.smul_zero_coeff]

/-- A stale-timestamp accumulation step leaves both accumulators unchanged. -/
theorem stepAccum_of_stale (s : Integrator) (ts : ℕ) (v : Vec3)
    (h : ts ≤ s.last_integration_time) :
    (stepAccum s ts v).alpha = s.alpha ∧ (stepAccum s ts v).beta = s.beta := by
  unfold stepAccum
  constructor
  · show s.alpha + deltaAlpha s ts v = s.alpha
    rw [deltaAlpha_of_stale s ts v h, Vec3.add_zero_vec]
  · show (if s.coning_comp_on then
        s.beta + Vec3.smul coningCoeff (Vec3.cross s.last_delta_alpha (deltaAlpha s ts v))
      else s.beta) = s.beta
    rw [deltaAlpha_of_stale s ts v h, Vec3.cross_zero_right, Vec3.smul_zero_vec,
      Vec3.add_zero_vec]
    exact ite_self s.beta

end Lemmas

/-- C1: a `put` in the accumulating state flushes and returns `triggered =
true` exactly when `auto_reset_interval ≠ 0` and `timestamp - last_reset_time
≥ auto_reset_interval`; with the default 4000 µs interval and 1000 µs steps
the 4th `put` after the baseline is the first triggered one, reporting
`integral_dt = 4000`. -/
theorem claim_C1 :
    (∀ (s : Integrator) (ts : ℕ) (v : Vec3), s.last_integration_time ≠ 0 →
      (((put s ts v).triggered = true ↔
          s.auto_reset_interval ≠ 0 ∧ s.auto_reset_interval ≤ ts - s.last_reset_time) ∧
        ((put s ts v).triggered = true →
          put s ts v =
            { triggered := true
              integral := some (flushValue (stepAccum s ts v))
              integral_dt := some (resetDt (stepAccum s ts v))
              state := resetState (stepAccum s ts v) }))) ∧
    autoResetPut1.triggered = false ∧
    autoResetPut2.triggered = false ∧
    autoResetPut3.triggered = false ∧
    autoResetPut4.triggered = false ∧
    autoResetPut5.triggered = true ∧
    autoResetPut5.integral_dt = some 4000 := by
  refine ⟨fun s ts v h0 => ⟨?_, ?_⟩, by decide, by decide, by decide, by decide,
    by decide, by decide⟩
  · constructor
    · intro htr
      obtain ⟨_, hA, hB⟩ := (put_triggered_iff s ts v).mp htr
      exact ⟨hA, hB⟩
    · intro hc
      exact (put_triggered_iff s ts v).mpr ⟨h0, hc⟩
  · intro htr
    obtain ⟨_, hA, hB⟩ := (put_triggered_iff s ts v).mp htr
    exact put_of_triggered s ts v h0 ⟨hA, hB⟩

/-- Witness for C1 at the concrete state reached after the baseline sample of
the auto-reset scenario. -/
theorem claim_C1_witness :
    ((put autoResetPut1.state 5000 sampleVal).triggered = true ↔
      autoResetPut1.state.auto_reset_interval ≠ 0 ∧
        autoResetPut1.state.auto_reset_interval
          ≤ 5000 - autoResetPut1.state.last_reset_time) ∧
    ((put autoResetPut1.state 5000 sampleVal).triggered = true →
      put autoResetPut1.state 5000 sampleVal =
        { triggered := true
          integral := some (flushValue (stepAccum autoResetPut1.state 5000 sampleVal))
          integral_dt := some (resetDt (stepAccum autoResetPut1.state 5000 sampleVal))
          state := resetState (stepAccum autoResetPut1.state 5000 sampleVal) }) :=
  claim_C1.1 autoResetPut1.state 5000 sampleVal (by decide)

/-- C4: a flush — by auto-reset in `put`/`put_with_interval` or by
`get`/`get_and_filtered` with `reset = true` — reports `integral_dt =
timestamp_of_flush - last_reset_time`, returns `alpha` combined with `beta`
when coning is on, zeroes exactly `alpha`, `beta`, `last_alpha` and
`last_delta_alpha`, moves `last_reset_time` to the flush timestamp, and keeps
`last_val` and `last_integration_time`; no non-flushing operation resets the
four accumulators. -/
theorem claim_C4 :
    (∀ s : Integrator,
      (resetState s).alpha = Vec3.zero ∧
      (resetState s).beta = Vec3.zero ∧
      (resetState s).last_alpha = Vec3.zero ∧
      (resetState s).last_delta_alpha = Vec3.zero ∧
      (resetState s).last_reset_time = s.last_integration_time ∧
      (resetState s).last_val = s.last_val ∧
      (resetState s).last_integration_time = s.last_integration_time ∧
      (resetState s).auto_reset_interval = s.auto_reset_interval ∧
      (resetState s).coning_comp_on = s.coning_comp_on ∧
      resetDt s = s.last_integration_time - s.last_reset_time ∧
      flushValue s = (if s.coning_comp_on then s.alpha + s.beta else s.alpha)) ∧
    (∀ (s : Integrator) (ts : ℕ) (v : Vec3), (put s ts v).triggered = true →
      (put s ts v).integral_dt = some (ts - s.last_reset_time) ∧
      (put s ts v).integral = some (flushValue (stepAccum s ts v)) ∧
      (put s ts v).state = resetState (stepAccum s ts v)) ∧
    (∀ (s : Integrator) (now iu : ℕ) (v : Vec3), s.last_integration_time ≠ 0 →
      put_with_interval s now iu v = put s (s.last_integration_time + iu) v) ∧
    (∀ s : Integrator,
      (Integrator.get s true).integral_dt = resetDt s ∧
      (Integrator.get s true).integral = flushValue s ∧
      (Integrator.get s true).state = resetState s ∧
      (get_and_filtered s true).state = resetState s) ∧
    (∀ (s : Integrator) (ts : ℕ) (v : Vec3), (put s ts v).triggered = false →
      ((put s ts v).state.alpha = s.alpha ∧
        (put s ts v).state.beta = s.beta ∧
        (put s ts v).state.last_alpha = s.last_alpha ∧
        (put s ts v).state.last_delta_alpha = s.last_delta_alpha) ∨
      (put s ts v).state = stepAccum s ts v) ∧
    (∀ s : Integrator,
      (Integrator.get s false).state = s ∧ (get_and_filtered s false).state = s) ∧
    (∀ (s : Integrator) (i : ℕ),
      (set_autoreset_interval s i).alpha = s.alpha ∧
      (set_autoreset_interval s i).beta = s.beta ∧
      (set_autoreset_interval s i).last_alpha = s.last_alpha ∧
      (set_autoreset_interval s i).last_delta_alpha = s.last_delta_alpha) := by
  refine ⟨fun s => ⟨rfl, rfl, rfl, rfl, rfl, rfl, rfl, rfl, rfl, rfl, rfl⟩,
    fun s ts v htr => ?_, fun s now iu v h0 => ?_,
    fun s => ⟨rfl, rfl, rfl, rfl⟩, fun s ts v hnt => ?_,
    fun s => ⟨rfl, rfl⟩, fun s i => ⟨rfl, rfl, rfl, rfl⟩⟩
  · obtain ⟨h0, hA, hB⟩ := (put_triggered_iff s ts v).mp htr
    rw [put_of_triggered s ts v h0 ⟨hA, hB⟩]
    exact ⟨rfl, rfl, rfl⟩
  · unfold put_with_interval
    rw [if_neg h0]
  · by_cases h0 : s.last_integration_time = 0
    · left
      unfold put
      rw [if_pos h0]
      exact ⟨rfl, rfl, rfl, rfl⟩
    · right
      by_cases hc : s.auto_reset_interval ≠ 0 ∧
          s.auto_reset_interval ≤ ts - s.last_reset_time
      · rw [put_of_triggered s ts v h0 hc] at hnt
        exact absurd hnt (by simp)
      · rw [put_state_of_not_triggered s ts v h0 hc]

/-- Witness for C4: the triggered `put` of the auto-reset scenario reports the
flushed duration and value and resets the accumulated state. -/
theorem claim_C4_witness :
    (put autoResetPut4.state 5000 sampleVal).integral_dt
        = some (5000 - autoResetPut4.state.last_reset_time) ∧
    (put autoResetPut4.state 5000 sampleVal).integral
        = some (flushValue (stepAccum autoResetPut4.state 5000 sampleVal)) ∧
    (put autoResetPut4.state 5000 sampleVal).state
        = resetState (stepAccum autoResetPut4.state 5000 sampleVal) :=
  claim_C4.2.1 autoResetPut4.state 5000 sampleVal (by decide)

/-- C6 (amended): a `put` whose timestamp does not exceed the stored
`last_integration_time` is a `dt = 0` step — it contributes a zero increment
to `alpha` and a zero coning correction to `beta` — and it does not trigger a
flush unless the auto-reset condition (`auto_reset_interval ≠ 0` and
`timestamp - last_reset_time ≥ auto_reset_interval`) independently holds at
that timestamp. -/
theorem claim_C6 (s : Integrator) (ts : ℕ) (v : Vec3)
    (_h0 : s.last_integration_time ≠ 0) (hst : ts ≤ s.last_integration_time) :
    deltaAlpha s ts v = Vec3.zero ∧
    (stepAccum s ts v).alpha = s.alpha ∧
    (stepAccum s ts v).beta = s.beta ∧
    (¬(s.auto_reset_interval ≠ 0 ∧ s.auto_reset_interval ≤ ts - s.last_reset_time) →
      (put s ts v).triggered = false) := by
  obtain ⟨ha, hb⟩ := stepAccum_of_stale s ts v hst
  refine ⟨deltaAlpha_of_stale s ts v hst, ha, hb, fun hc => ?_⟩
  cases htr : (put s ts v).triggered with
  | false => rfl
  | true =>
    obtain ⟨_, hA, hB⟩ := (put_triggered_iff s ts v).mp htr
    exact absurd ⟨hA, hB⟩ hc

/-- Witness for C6 at a concrete stale input: the state of the
stale-timestamp scenario before reconfiguration (auto-reset disabled),
receiving the stale timestamp 8000 µs. -/
theorem claim_C6_witness :
    deltaAlpha stalePut2.state 8000 sampleVal = Vec3.zero ∧
    (stepAccum stalePut2.state 8000 sampleVal).alpha = stalePut2.state.alpha ∧
    (stepAccum stalePut2.state 8000 sampleVal).beta = stalePut2.state.beta ∧
    (¬(stalePut2.state.auto_reset_interval ≠ 0 ∧
        stalePut2.state.auto_reset_interval ≤ 8000 - stalePut2.state.last_reset_time) →
      (put stalePut2.state 8000 sampleVal).triggered = false) :=
  claim_C6 stalePut2.state 8000 sampleVal (by decide) (by decide)

/-- Counterexample to C6 as stated: after a mid-window enlargement of the
elapsed window via `set_autoreset_interval`, a `put` with a stale timestamp
(8000 µs against a stored `last_integration_time` of 10 000 µs) does trigger
a flush, because the auto-reset condition holds at the stale timestamp. -/
theorem claim_C6_counterexample :
    staleReconfigured.last_integration_time ≠ 0 ∧
    8000 ≤ staleReconfigured.last_integration_time ∧
    stalePut3.triggered = true := by
  refine ⟨by decide, by decide, by decide⟩

/-- Invariant of the constant-rate run: after `n ≥ 1` identical samples the
accumulator holds the trapezoidal integral of a constant signal, the stored
baseline is the latest timestamp, and the configuration is untouched. -/
theorem uniformRun_spec (t0 step : ℕ) (v : Vec3) (h0 : t0 ≠ 0) :
    ∀ n, 1 ≤ n →
      (uniformRun t0 step v n).alpha
          = Vec3.smul (((n : ℚ) - 1) * ((step : ℚ) / 1000000)) v ∧
      (uniformRun t0 step v n).last_integration_time = t0 + (n - 1) * step ∧
      (uniformRun t0 step v n).last_val = v ∧
      (uniformRun t0 step v n).auto_reset_interval = 0 ∧
      (uniformRun t0 step v n).coning_comp_on = false := by
  intro n hn
  induction n, hn using Nat.le_induction with
  | base =>
    refine ⟨?_, rfl, rfl, rfl, rfl⟩
    rw [show (((1 : ℕ) : ℚ) - 1) * ((step : ℚ) / 1000000) = 0 by norm_num,
      Vec3.smul_zero_coeff]
    rfl
  | succ n hn ih =>
    obtain ⟨iha, ihl, ihv, ihr, ihc⟩ := ih
    have hlast : (uniformRun t0 step v n).last_integration_time ≠ 0 := by
      rw [ihl]
      omega
    have hnc : ¬((uniformRun t0 step v n).auto_reset_interval ≠ 0 ∧
        (uniformRun t0 step v n).auto_reset_interval
          ≤ (t0 + n * step) - (uniformRun t0 step v n).last_reset_time) := by
      rw [ihr]
      simp
    have hstep : uniformRun t0 step v (n + 1)
        = stepAccum (uniformRun t0 step v n) (t0 + n * step) v := by
      show (put (uniformRun t0 step v n) (t0 + n * step) v).state = _
      rw [put_state_of_not_triggered (uniformRun t0 step v n) (t0 + n * step) v hlast hnc]
    have hdt : t0 + n * step - (t0 + (n - 1) * step) = step := by
      rw [Nat.add_sub_add_left, ← Nat.sub_mul, Nat.sub_sub_self hn, one_mul]
    rw [hstep]
    refine ⟨?_, ?_, rfl, ihr, ihc⟩
    · show (uniformRun t0 step v n).alpha
          + deltaAlpha (uniformRun t0 step v n) (t0 + n * step) v = _
      unfold deltaAlpha
      rw [iha, ihl, ihv, hdt, Vec3.add_self, Vec3.smul_smul, Vec3.smul_add_smul]
      congr 1
      push_cast
      ring
    · show t0 + n * step = t0 + (n + 1 - 1) * step
      rfl

/-- C2: feeding `N ≥ 1` identical samples `v` at a uniform timestamp step into
a fresh integrator with coning off (auto-reset disabled, so the window is
drained only by the final read) leaves the accumulated integral — as returned
by a `get`, with or without flush — equal to `v * (N - 1) * dt`, with
`dt = step / 10^6` the per-step duration used by the trapezoidal increment
`(val + last_val) * 0.5 * dt`. -/
theorem claim_C2 (v : Vec3) (t0 step N : ℕ) (h0 : t0 ≠ 0) (hN : 1 ≤ N) :
    (Integrator.get (uniformRun t0 step v N) false).integral
        = Vec3.smul (((N : ℚ) - 1) * ((step : ℚ) / 1000000)) v ∧
    (Integrator.get (uniformRun t0 step v N) true).integral
        = Vec3.smul (((N : ℚ) - 1) * ((step : ℚ) / 1000000)) v ∧
    (uniformRun t0 step v N).alpha
        = Vec3.smul (((N : ℚ) - 1) * ((step : ℚ) / 1000000)) v := by
  obtain ⟨ha, _, _, _, hc⟩ := uniformRun_spec t0 step v h0 N hN
  have hint : ∀ r : Bool,
      (Integrator.get (uniformRun t0 step v N) r).integral
        = (uniformRun t0 step v N).alpha := by
    intro r
    show flushValue _ = _
    simp [flushValue, hc]
  exact ⟨(hint false).trans ha, (hint true).trans ha, ha⟩

/-- One `put` of a sample collinear with `d` preserves the coupling between a
coning-enabled run and a coning-disabled run, and both runs agree on whether
the call triggered a flush. -/
theorem mirrors_put (d : Vec3) (son soff : Integrator) (h : mirrors d son soff)
    (ts : ℕ) (c : ℚ) :
    mirrors d (put son ts (Vec3.smul c d)).state (put soff ts (Vec3.smul c d)).state ∧
    (put son ts (Vec3.smul c d)).triggered = (put soff ts (Vec3.smul c d)).triggered := by
  obtain ⟨hint, hlast, hreset, halpha, hval, hbeta, hon, hoff, ⟨cv, hcv⟩, ⟨cd, hcd⟩⟩ := h
  by_cases h0 : son.last_integration_time = 0
  · have h0' : soff.last_integration_time = 0 := by rw [← hlast]; exact h0
    unfold put
    rw [if_pos h0, if_pos h0']
    exact ⟨⟨hint, rfl, rfl, halpha, rfl, hbeta, hon, hoff, ⟨c, rfl⟩, ⟨cd, hcd⟩⟩, rfl⟩
  · have h0' : soff.last_integration_time ≠ 0 := by rw [← hlast]; exact h0
    have hδeq : deltaAlpha soff ts (Vec3.smul c d) = deltaAlpha son ts (Vec3.smul c d) := by
      unfold deltaAlpha
      rw [hlast, hval]
    have hδcol : ∃ k, deltaAlpha son ts (Vec3.smul c d) = Vec3.smul k d := by
      refine ⟨((ts - son.last_integration_time : ℕ) : ℚ) / 1000000 * (1 / 2) * (c + cv), ?_⟩
      unfold deltaAlpha
      rw [hcv, Vec3.smul_add_smul, Vec3.smul_smul]
    have halpha' : son.alpha + deltaAlpha son ts (Vec3.smul c d)
        = soff.alpha + deltaAlpha soff ts (Vec3.smul c d) := by
      rw [halpha, hδeq]
    have hbeta' : (stepAccum son ts (Vec3.smul c d)).beta = Vec3.zero := by
      obtain ⟨k, hk⟩ := hδcol
      show (if son.coning_comp_on then
          son.beta +
            Vec3.smul coningCoeff
              (Vec3.cross son.last_delta_alpha (deltaAlpha son ts (Vec3.smul c d)))
        else son.beta) = Vec3.zero
      rw [if_pos hon, hbeta, hcd, hk, Vec3.cross_smul_smul, Vec3.smul_zero_vec,
        Vec3.zero_add_vec]
    by_cases hcond : son.auto_reset_interval ≠ 0 ∧
        son.auto_reset_interval ≤ ts - son.last_reset_time
    · have hcond' : soff.auto_reset_interval ≠ 0 ∧
          soff.auto_reset_interval ≤ ts - soff.last_reset_time := by
        rw [← hint, ← hreset]
        exact hcond
      rw [put_of_triggered son ts (Vec3.smul c d) h0 hcond,
        put_of_triggered soff ts (Vec3.smul c d) h0' hcond']
      exact ⟨⟨hint, rfl, rfl, rfl, rfl, rfl, hon, hoff, ⟨c, rfl⟩,
        ⟨0, (Vec3.smul_zero_coeff d).symm⟩⟩, rfl⟩
    · have hcond' : ¬(soff.auto_reset_interval ≠ 0 ∧
          soff.auto_reset_interval ≤ ts - soff.last_reset_time) := by
        rw [← hint, ← hreset]
        exact hcond
      rw [put_state_of_not_triggered son ts (Vec3.smul c d) h0 hcond,
        put_state_of_not_triggered soff ts (Vec3.smul c d) h0' hcond']
      exact ⟨⟨hint, rfl, hreset, halpha', rfl, hbeta', hon, hoff, ⟨c, rfl⟩, hδcol⟩, rfl⟩

/-- Running any list of collinear samples through `put` preserves the
coning/no-coning coupling. -/
theorem mirrors_runPuts (d : Vec3) (l : List (ℕ × ℚ)) :
    ∀ son soff : Integrator, mirrors d son soff →
      mirrors d (runPuts son (collinearSamples d l))
        (runPuts soff (collinearSamples d l)) := by
  induction l with
  | nil => exact fun son soff h => h
  | cons p rest ih =>
    intro son soff h
    exact ih (put son p.1 (Vec3.smul p.2 d)).state (put soff p.1 (Vec3.smul p.2 d)).state
      (mirrors_put d son soff h p.1 p.2).1

/-- Two freshly constructed integrators that differ only in the coning flag
are coupled for any direction `d`. -/
theorem mirrors_init (d : Vec3) (interval : ℕ) :
    mirrors d (mk0 interval true) (mk0 interval false) :=
  ⟨rfl, rfl, rfl, rfl, rfl, rfl, rfl, rfl, ⟨0, (Vec3.smul_zero_coeff d).symm⟩,
    ⟨0, (Vec3.smul_zero_coeff d).symm⟩⟩

/-- C7: on samples that are all scalar multiples of one direction `d`, the
coning-enabled integrator returns the same integral as the coning-disabled
one: the cross-product correction accumulated into `beta` stays zero. -/
theorem claim_C7 (d : Vec3) (interval : ℕ) (l : List (ℕ × ℚ)) :
    (Integrator.get (runPuts (mk0 interval true) (collinearSamples d l)) false).integral
      = (Integrator.get (runPuts (mk0 interval false) (collinearSamples d l)) false).integral ∧
    (runPuts (mk0 interval true) (collinearSamples d l)).beta = Vec3.zero := by
  obtain ⟨hint, hlast, hreset, halpha, hval, hbeta, hon, hoff, _, _⟩ :=
    mirrors_runPuts d l (mk0 interval true) (mk0 interval false) (mirrors_init d interval)
  refine ⟨?_, hbeta⟩
  show flushValue _ = flushValue _
  unfold flushValue
  rw [if_pos hon, if_neg (by rw [hoff]; exact Bool.false_ne_true), hbeta,
    Vec3.add_zero_vec, halpha]

/-- Witness for C2: three samples of the concrete value at a 1000 µs step. -/
theorem claim_C2_witness :
    (Integrator.get (uniformRun 1000 1000 sampleVal 3) false).integral
        = Vec3.smul ((((3 : ℕ) : ℚ) - 1) * (((1000 : ℕ) : ℚ) / 1000000)) sampleVal ∧
    (Integrator.get (uniformRun 1000 1000 sampleVal 3) true).integral
        = Vec3.smul ((((3 : ℕ) : ℚ) - 1) * (((1000 : ℕ) : ℚ) / 1000000)) sampleVal ∧
    (uniformRun 1000 1000 sampleVal 3).alpha
        = Vec3.smul ((((3 : ℕ) : ℚ) - 1) * (((1000 : ℕ) : ℚ) / 1000000)) sampleVal :=
  claim_C2 sampleVal 1000 1000 3 (by decide) (by decide)

/-- C3: any call to `put` made while `last_integration_time = 0` (first call
after construction or reset) stores `val` and `timestamp` as the baseline,
leaves the accumulators `alpha` and `beta` (and the coning scratch vectors)
unchanged, and returns `triggered = false`. -/
theorem claim_C3 (s : Integrator) (ts : ℕ) (v : Vec3)
    (h : s.last_integration_time = 0) :
    (put s ts v).triggered = false ∧
    (put s ts v).state.alpha = s.alpha ∧
    (put s ts v).state.beta = s.beta ∧
    (put s ts v).state.last_alpha = s.last_alpha ∧
    (put s ts v).state.last_delta_alpha = s.last_delta_alpha ∧
    (put s ts v).state.last_val = v ∧
    (put s ts v).state.last_integration_time = ts := by
  simp [put, h]

/-- Witness for C3 at a concrete input: a fresh integrator receiving its first
sample. -/
theorem claim_C3_witness :
    (put (mk0 4000 false) 1000 sampleVal).triggered = false ∧
    (put (mk0 4000 false) 1000 sampleVal).state.alpha = (mk0 4000 false).alpha ∧
    (put (mk0 4000 false) 1000 sampleVal).state.beta = (mk0 4000 false).beta ∧
    (put (mk0 4000 false) 1000 sampleVal).state.last_alpha = (mk0 4000 false).last_alpha ∧
    (put (mk0 4000 false) 1000 sampleVal).state.last_delta_alpha
      = (mk0 4000 false).last_delta_alpha ∧
    (put (mk0 4000 false) 1000 sampleVal).state.last_val = sampleVal ∧
    (put (mk0 4000 false) 1000 sampleVal).state.last_integration_time = 1000 :=
  claim_C3 (mk0 4000 false) 1000 sampleVal rfl

/-- C5: `get` with `reset = false` returns the combined value (`alpha`, plus
`beta` when coning is on) and the elapsed duration without mutating any state;
in particular two consecutive such calls return identical results. -/
theorem claim_C5 (s : Integrator) :
    (Integrator.get s false).integral = flushValue s ∧
    (Integrator.get s false).integral_dt = resetDt s ∧
    (Integrator.get s false).state = s ∧
    Integrator.get ((Integrator.get s false).state) false = Integrator.get s false := by
  exact ⟨rfl, rfl, rfl, rfl⟩

/-- C8: `get_and_filtered` returns the same integral, duration and state as
`get`, and additionally `filtered_val = integral / (integral_dt converted to
seconds)`; at the concrete window of 2 000 000 µs with integral `(4, 0, 0)` it
returns `filtered_val = (2, 0, 0)`. -/
theorem claim_C8 :
    (∀ (s : Integrator) (r : Bool),
      (get_and_filtered s r).integral = (Integrator.get s r).integral ∧
      (get_and_filtered s r).integral_dt = (Integrator.get s r).integral_dt ∧
      (get_and_filtered s r).state = (Integrator.get s r).state ∧
      (get_and_filtered s r).filtered_val =
        Vec3.smul (1 / (((Integrator.get s r).integral_dt : ℚ) / 1000000))
          ((Integrator.get s r).integral)) ∧
    (get_and_filtered filteredExampleState false).integral_dt = 2000000 ∧
    (get_and_filtered filteredExampleState false).integral = ⟨4, 0, 0⟩ ∧
    (get_and_filtered filteredExampleState false).filtered_val = ⟨2, 0, 0⟩ := by
  refine ⟨fun s r => ⟨rfl, rfl, rfl, ?_⟩, ?_, ?_, ?_⟩
  · rw [one_div_div]
    rfl
  · rfl
  · rfl
  · show Vec3.smul (1000000 / ((2000000 : ℕ) : ℚ)) ⟨4, 0, 0⟩ = ⟨2, 0, 0⟩
    simp [Vec3.smul]
    norm_num

/-- C9: `set_autoreset_interval` updates only `auto_reset_interval`; the
accumulated value and elapsed duration are unaffected, and the flush decision
of a following `put` uses the new interval. -/
theorem claim_C9 (s : Integrator) (i : ℕ) :
    (set_autoreset_interval s i).auto_reset_interval = i ∧
    (set_autoreset_interval s i).alpha = s.alpha ∧
    (set_autoreset_interval s i).beta = s.beta ∧
    (set_autoreset_interval s i).last_alpha = s.last_alpha ∧
    (set_autoreset_interval s i).last_delta_alpha = s.last_delta_alpha ∧
    (set_autoreset_interval s i).last_val = s.last_val ∧
    (set_autoreset_interval s i).last_integration_time = s.last_integration_time ∧
    (set_autoreset_interval s i).last_reset_time = s.last_reset_time ∧
    (set_autoreset_interval s i).coning_comp_on = s.coning_comp_on ∧
    flushValue (set_autoreset_interval s i) = flushValue s ∧
    resetDt (set_autoreset_interval s i) = resetDt s ∧
    (∀ (ts : ℕ) (v : Vec3),
      (put (set_autoreset_interval s i) ts v).triggered = true ↔
        s.last_integration_time ≠ 0 ∧ i ≠ 0 ∧ i ≤ ts - s.last_reset_time) := by
  refine ⟨rfl, rfl, rfl, rfl, rfl, rfl, rfl, rfl, rfl, rfl, rfl, fun ts v => ?_⟩
  exact put_triggered_iff (set_autoreset_interval s i) ts v

/-- C10: no operation of the public method surface modifies the
coning-compensation flag, so it stays as fixed at construction. -/
theorem claim_C10 (s : Integrator) (ts now iu i : ℕ) (v : Vec3) (r : Bool) :
    (put s ts v).state.coning_comp_on = s.coning_comp_on ∧
    (put_with_interval s now iu v).state.coning_comp_on = s.coning_comp_on ∧
    (Integrator.get s r).state.coning_comp_on = s.coning_comp_on ∧
    (get_and_filtered s r).state.coning_comp_on = s.coning_comp_on ∧
    (set_autoreset_interval s i).coning_comp_on = s.coning_comp_on ∧
    (mk0 i r).coning_comp_on = r := by
  refine ⟨put_state_coning s ts v, ?_, ?_, ?_, rfl, rfl⟩
  · unfold put_with_interval
    split
    · exact put_state_coning s now v
    · exact put_state_coning s (s.last_integration_time + iu) v
  · unfold Integrator.get
    cases r <;> rfl
  · unfold get_and_filtered Integrator.get
    cases r <;> rfl

end Firmware
